import Mathlib

/-!
# netappfiles-go-sdk-sample: unit conversion, slice search, configuration
readers, subscription resolution and the authorizer provider

A shallow embedding of `internal/utils/utils.go`, `internal/iam/iam.go` and
`internal/models/models.go`.

Conventions of the embedding:

* Go's `uint32` / `uint64` are natural numbers; every arithmetic operation
  and every conversion is followed by the reduction modulo `2^32` / `2^64`
  that the Go language prescribes for it.
* Go's `int` (the index returned by `FindInSlice`) is an `Int`; a slice has
  fewer than `2^63` elements, so the index never wraps.
* Go strings are `String`s (sequences of Unicode code points, i.e. valid
  UTF-8 text).
* A Go `error` is a `GoError`, carrying the text of its `Error()` method; the
  `nil` error is `none`.
* The outside world (environment variables, the file system, the `az`
  process, the identity library, the JSON decoder) is a record of oracles,
  `World`; every observable side effect of a function (a process started,
  a line printed, a file read) is appended to a list of `Event`s that the
  function returns with its Go results.
-/

namespace AnfSample

/-! ## Unit converter (`utils.go`, lines 45-53) -/

/-- Conversion to Go's `uint32`: reduction modulo `2^32`. -/
def toUint32 (n : Nat) : Nat := n % 2 ^ 32

/-- Conversion to Go's `uint64`: reduction modulo `2^64`. -/
def toUint64 (n : Nat) : Nat := n % 2 ^ 64

/-- Product of two `uint32` values; Go computes it modulo `2^32`. -/
def mulUint32 (a b : Nat) : Nat := (a * b) % 2 ^ 32

/-- Quotient of two `uint64` values (truncated division; never wraps). -/
def divUint64 (a b : Nat) : Nat := a / b

/-- `GetBytesInTiB(size uint64) uint32`:
`return uint32(size / 1024 / 1024 / 1024 / 1024)`. The divisions are
`uint64` divisions, the conversion to `uint32` comes last. -/
def GetBytesInTiB (size : Nat) : Nat :=
  toUint32 (divUint64 (divUint64 (divUint64 (divUint64 size 1024) 1024) 1024) 1024)

/-- `GetTiBInBytes(size uint32) uint64`:
`return uint64(size * 1024 * 1024 * 1024 * 1024)`. The operand `size` has
type `uint32` and the untyped constants take that type, so all four
products are `uint32` products; the conversion to `uint64` is applied to
the finished `uint32` product. -/
def GetTiBInBytes (size : Nat) : Nat :=
  toUint64 (mulUint32 (mulUint32 (mulUint32 (mulUint32 size 1024) 1024) 1024) 1024)

/-! ## Slice search (`utils.go`, lines 35-43 and 67-76) -/

/-- The loop of `Contains`: `for _, e := range array`. -/
def Contains : List String → String → Bool
  | [], _ => false
  | e :: rest, element => if e = element then true else Contains rest element

/-- The loop of `FindInSlice`, `for i, item := range slice`, entered at
index `i` with the elements from `i` on still to visit. -/
def FindInSlice.loop (val : String) : List String → Int → Int × Bool
  | [], _ => (-1, false)
  | item :: rest, i => if item = val then (i, true) else FindInSlice.loop val rest (i + 1)

/-- `FindInSlice(slice []string, val string) (int, bool)`. -/
def FindInSlice (slice : List String) (val : String) : Int × Bool :=
  FindInSlice.loop val slice 0

/-! ## Go library functions used by the sample

`strings.TrimSpace`, `strings.Join`, `unicode.IsSpace` and the formatting
loop of package `fmt` (`(*pp).doPrintf`, `(*pp).argNumber`, `parseArgNumber`,
`parsenum` and `tooLarge` of `fmt/print.go` and `fmt/format.go`), restricted
to the ways the sample calls them: `fmt.Errorf` and `fmt.Sprintf` with a
format and no operand, or with a literal followed by one `%v` and an error
operand. -/

/-- `unicode.IsSpace`: the code points with Unicode's White Space property. -/
def IsSpace (c : Char) : Bool :=
  c = '\t' || c = '\n' || c = '\x0b' || c = '\x0c' || c = '\r' || c = ' ' ||
  c = '\u0085' || c = '\u00a0' || c = '\u1680' ||
  (0x2000 ≤ c.toNat && c.toNat ≤ 0x200a) ||
  c = '\u2028' || c = '\u2029' || c = '\u202f' || c = '\u205f' || c = '\u3000'

/-- `strings.TrimLeftFunc(s, unicode.IsSpace)` on the code points of `s`. -/
def trimLeftSpace (s : List Char) : List Char := s.dropWhile IsSpace

/-- `strings.TrimRightFunc(s, unicode.IsSpace)` on the code points of `s`. -/
def trimRightSpace (s : List Char) : List Char := (s.reverse.dropWhile IsSpace).reverse

/-- `strings.TrimSpace(s)`: `s` without its leading and trailing white
space (Go's ASCII fast path and its Unicode fallback,
`TrimFunc(s, unicode.IsSpace)`, compute the same slice). -/
def TrimSpace (s : String) : String := ⟨trimRightSpace (trimLeftSpace s.data)⟩

/-- Statement of "`r` is `o` with leading and trailing white space removed":
`o` is `r` between two runs of white space, and `r` neither starts nor ends
with white space. -/
def IsTrimOf (o r : String) : Prop :=
  ∃ pre post : List Char, o.data = pre ++ r.data ++ post ∧
    (∀ c ∈ pre, IsSpace c = true) ∧ (∀ c ∈ post, IsSpace c = true) ∧
    (∀ c, r.data.head? = some c → IsSpace c = false) ∧
    (∀ c, r.data.getLast? = some c → IsSpace c = false)

/-- `strings.Join(elems, sep)`. -/
def Join : List String → String → String
  | [], _ => ""
  | [e], _ => e
  | e :: rest, sep => e ++ sep ++ Join rest sep

/-- Length of a text in bytes (Go's `len` of a string). -/
def byteLen (s : List Char) : Nat := (s.map Char.utf8Size).sum

/-- `fmt.tooLarge`: `x > 1e6` (the argument is never negative here). -/
def tooLarge (x : Nat) : Bool := x > 1000000

/-- The digit loop of `fmt.parsenum`. `none` is the overflow exit
(`return 0, false, end`); otherwise the value read, whether a digit was
read, and the text left after the digits. -/
def parsenum.loop : List Char → Nat → Bool → Option (Nat × Bool × List Char)
  | [], num, isnum => some (num, isnum, [])
  | c :: rest, num, isnum =>
    if '0' ≤ c ∧ c ≤ '9' then
      if tooLarge num then none
      else parsenum.loop rest (num * 10 + (c.toNat - '0'.toNat)) true
    else some (num, isnum, c :: rest)

/-- `fmt.parsenum(s, start, end)` applied to the text `s[start:end]`: whether
a number was read and the text left (`s[newi:end]`). On overflow, and when the
text is empty, `newi = end`. -/
def parsenum (s : List Char) : Bool × List Char :=
  match s with
  | [] => (false, [])
  | _ =>
    match parsenum.loop s 0 false with
    | none => (false, [])
    | some (_, isnum, rest) => (isnum, rest)

/-- Search of `fmt.parseArgNumber` for the closing bracket: the text before
the first `]` and the text after it. -/
def splitAtBracket : List Char → Option (List Char × List Char)
  | [] => none
  | c :: rest =>
    if c = ']' then some ([], rest)
    else match splitAtBracket rest with
      | none => none
      | some (inner, after) => some (c :: inner, after)

/-- `fmt.parseArgNumber(format)` for a `format` that starts with `[`: the
text after the `wid` bytes consumed, and `ok`. The index itself is not
returned: with no operands every index is out of range. -/
def parseArgNumber (format : List Char) : List Char × Bool :=
  if byteLen format < 3 then (format.drop 1, false)
  else
    match splitAtBracket (format.drop 1) with
    | none => (format.drop 1, false)
    | some (inner, after) =>
      match parsenum inner with
      | (true, []) => (after, true)
      | _ => (after, false)

/-- `(*pp).argNumber(argNum, format, i, 0)`: the text left, `found`, and the
new value of `p.goodArgNum`. With no operands `index < numArgs` is never
true, so a bracket always clears `goodArgNum`. -/
def argNumber (format : List Char) (goodArgNum : Bool) : List Char × Bool × Bool :=
  match format with
  | '[' :: _ =>
    let (rest, ok) := parseArgNumber format
    (rest, ok, false)
  | _ => (format, false, goodArgNum)

/-- The flag loop of `doPrintf` (`simpleFormat`): with no operands the fast
path is never taken, so the loop only steps over the flag characters. -/
def skipFlags : List Char → List Char
  | c :: rest =>
    if c = '#' ∨ c = '0' ∨ c = '+' ∨ c = '-' ∨ c = ' ' then skipFlags rest else c :: rest
  | [] => []

/-- The width part of a verb in `doPrintf`: `*` takes the width from an
operand (there is none: `%!(BADWIDTH)` is written), otherwise `parsenum`
reads it. Result: the text left, `afterIndex`, `p.goodArgNum`, and the text
written. -/
def widthStep (s : List Char) (afterIndex goodArgNum : Bool) :
    List Char × Bool × Bool × List Char :=
  match s with
  | '*' :: s1 => (s1, false, goodArgNum, "%!(BADWIDTH)".data)
  | _ =>
    let r := parsenum s
    (r.2, afterIndex, if afterIndex && r.1 then false else goodArgNum, [])

/-- The precision part of a verb in `doPrintf`, entered when the next
character is `.`; same results as `widthStep`. -/
def precStep (s : List Char) (afterIndex goodArgNum : Bool) :
    List Char × Bool × Bool × List Char :=
  match s with
  | '.' :: s1 =>
    let goodArgNum := if afterIndex then false else goodArgNum
    let a := argNumber s1 goodArgNum
    match a.1 with
    | '*' :: s3 => (s3, false, a.2.2, "%!(BADPREC)".data)
    | s2 => ((parsenum s2).2, a.2.1, a.2.2, [])
  | _ => (s, afterIndex, goodArgNum, [])

/-- The end of a verb in `doPrintf`: `%!(NOVERB)` and `break` at the end of
the format, `%` for the verb `%`, `%!v(BADINDEX)` after a bad argument
index, and `%!v(MISSING)` otherwise, as there is no operand. -/
def verbStep (s : List Char) (goodArgNum : Bool) : List Char × Option (List Char) :=
  match s with
  | [] => ("%!(NOVERB)".data, none)
  | verb :: s1 =>
    if verb = '%' then (['%'], some s1)
    else if !goodArgNum then ("%!".data ++ [verb] ++ "(BADINDEX)".data, some s1)
    else ("%!".data ++ [verb] ++ "(MISSING)".data, some s1)

/-- One verb of `(*pp).doPrintf(format, nil)`: `format` is the text after the
`%`. The result is the text written to the buffer and the format text left
to process, `none` when the loop is left (`break` after `%!(NOVERB)`). -/
def doVerb (format : List Char) : List Char × Option (List Char) :=
  -- flags, then an explicit argument index
  let a := argNumber (skipFlags format) true
  let wd := widthStep a.1 a.2.1 a.2.2
  let pr := precStep wd.1 wd.2.1 wd.2.2.1
  -- `if !afterIndex { argNum, i, afterIndex = p.argNumber(...) }`
  let b := if pr.2.1 then (pr.1, pr.2.1, pr.2.2.1) else argNumber pr.1 pr.2.2.1
  let v := verbStep b.1 b.2.2
  (wd.2.2.2 ++ pr.2.2.2 ++ v.1, v.2)

/-- The `formatLoop` of `(*pp).doPrintf(format, nil)`, the formatting loop of
`fmt.Sprintf` and `fmt.Errorf`, called without operands. Each round copies
the text up to the next `%` and processes one verb; the first argument
bounds the number of rounds. -/
def doPrintf : Nat → List Char → List Char
  | 0, _ => []
  | fuel + 1, format =>
    let lit := format.takeWhile (fun c => c != '%')
    match format.dropWhile (fun c => c != '%') with
    | [] => lit
    | _ :: afterPercent =>
      match doVerb afterPercent with
      | (out, none) => lit ++ out
      | (out, some rest) => lit ++ out ++ doPrintf fuel rest

/-- `fmt.Sprintf(format)` with no operands. Every round of the loop consumes
at least the `%` it stops at, so `length + 1` rounds always suffice
(`doPrintf_fuel` below). -/
def Sprintf0 (format : String) : String := ⟨doPrintf (format.length + 1) format.data⟩

/-- A Go `error` value, identified with the text its `Error()` method
returns. -/
structure GoError where
  /-- Text of `Error()`. -/
  Error : String
deriving DecidableEq, Repr

/-- `fmt.Errorf(format)` with no operands: `&errorString{Sprintf(format)}`. -/
def Errorf0 (format : String) : GoError := ⟨Sprintf0 format⟩

/-- `fmt.Sprintf(lit + "%v", err)` for a literal `lit` without `%` and a
non-nil `err`: the literal followed by `err.Error()`. -/
def SprintfV (lit : String) (err : GoError) : String := lit ++ err.Error

/-! ## Data model (`models.go`) -/

/-- `models.AzureAuthInfo`: every field is a `*string`; `none` is the nil
pointer (field absent). -/
structure AzureAuthInfo where
  ClientID : Option String := none
  ClientSecret : Option String := none
  SubscriptionID : Option String := none
  TenantID : Option String := none
  ActiveDirectoryEndpointURL : Option String := none
  ResourceManagerEndpointURL : Option String := none
  ActiveDirectoryGraphResourceID : Option String := none
  SqlManagementEndpointURL : Option String := none
  GalleryEndpointURL : Option String := none
  ManagementEndpointURL : Option String := none
deriving DecidableEq, Repr

/-- `models.AzureBasicInfo`. -/
structure AzureBasicInfo where
  SubscriptionID : Option String := none
  TenantID : Option String := none
  ResourceManagerEndpointURL : Option String := none
  ManagementEndpointURL : Option String := none
deriving DecidableEq, Repr

/-! ## The outside world -/

/-- A value of the interface `azcore.TokenCredential`: a handle on a
credential object of the identity library. -/
structure TokenCredential where
  handle : Nat
deriving DecidableEq, Repr

/-- The external collaborators of the sample, as oracles. Each field is the
Go signature of the call it stands for, results in Go's order. -/
structure World where
  /-- `os.Getenv(key)`: the value, empty when the variable is unset. -/
  Getenv : String → String
  /-- `exec.Command(name, arg...).Output()`: standard output and error. -/
  Output : String → List String → String × Option GoError
  /-- `ioutil.ReadFile(path)`. -/
  ReadFile : String → String × Option GoError
  /-- `azidentity.NewDefaultAzureCredential(nil)`. -/
  NewDefaultAzureCredential : Option TokenCredential × Option GoError
  /-- `json.Unmarshal(data, &v)` for `v` an `AzureBasicInfo`: the value of
  `v` after the call, and the error. -/
  UnmarshalBasicInfo : String → AzureBasicInfo → AzureBasicInfo × Option GoError
  /-- `json.Unmarshal(data, &v)` for `v` an `AzureAuthInfo`. -/
  UnmarshalAuthInfo : String → AzureAuthInfo → AzureAuthInfo × Option GoError

/-- An observable action of the program on the outside world. -/
inductive Event where
  /-- `os.Getenv(key)` was called. -/
  | getenv (key : String)
  /-- A process was started with `exec.Command(name, arg...).Output()`. -/
  | exec (name : String) (args : List String)
  /-- `ioutil.ReadFile(path)` was called. -/
  | readFile (path : String)
  /-- `azidentity.NewDefaultAzureCredential(nil)` was called. -/
  | newCredential
  /-- Text written to standard output by `fmt.Print`, `fmt.Printf`. -/
  | stdout (text : String)
  /-- A line handed to `log.Println` (`utils.ConsoleOutput`). -/
  | log (line : String)
deriving DecidableEq, Repr

/-- The event starts an external process. -/
def Event.isExec : Event → Bool
  | .exec _ _ => true
  | _ => false

/-- The event belongs to the subscription resolver: an environment lookup
or an external process. -/
def Event.isResolver : Event → Bool
  | .getenv _ => true
  | .exec _ _ => true
  | _ => false

/-! ## Subscription resolver (`utils.go`, lines 86-123) -/

/-- `GetSubscriptionIdFromEnv() (string, error)`. -/
def GetSubscriptionIdFromEnv (w : World) : (String × Option GoError) × List Event :=
  let subscriptionID := w.Getenv "AZURE_SUBSCRIPTION_ID"
  if subscriptionID = "" then
    (("", some (Errorf0 "AZURE_SUBSCRIPTION_ID environment variable is not set")),
      [Event.getenv "AZURE_SUBSCRIPTION_ID"])
  else
    ((subscriptionID, none), [Event.getenv "AZURE_SUBSCRIPTION_ID"])

/-- Arguments of the command line `az account show --query id -o tsv`. -/
def azArgs : List String := ["account", "show", "--query", "id", "-o", "tsv"]

/-- `GetSubscriptionIdFromAzCli() (string, error)`. -/
def GetSubscriptionIdFromAzCli (w : World) : (String × Option GoError) × List Event :=
  match w.Output "az" azArgs with
  | (_, some err) =>
    (("", some err),
      [Event.exec "az" azArgs,
       Event.stdout ("Error running az account show: " ++ err.Error ++ "\n")])
  | (output, none) =>
    let subscriptionID := TrimSpace output
    ((subscriptionID, none), [Event.exec "az" azArgs])

/-- `GetSubscriptionId() (string, error)`. -/
def GetSubscriptionId (w : World) : (String × Option GoError) × List Event :=
  let errs : List String := []
  match GetSubscriptionIdFromEnv w with
  | ((subscriptionID, none), ev1) => ((subscriptionID, none), ev1)
  | ((_, some err), ev1) =>
    let errs := errs ++ [SprintfV "GetSubscriptionIdFromEnv error: " err]
    match GetSubscriptionIdFromAzCli w with
    | ((subscriptionID, none), ev2) => ((subscriptionID, none), ev1 ++ ev2)
    | ((_, some err), ev2) =>
      let errs := errs ++ [SprintfV "GetSubscriptionIdFromAzCli error: " err]
      (("", some (Errorf0 (Join errs "; "))), ev1 ++ ev2)

/-! ## Configuration readers (`utils.go`, lines 55-65; `iam.go`, lines 41-51) -/

/-- `ReadAzureBasicInfoJSON(path string) (*models.AzureBasicInfo, error)`.
The returned pointer is never nil; the record it points to is returned. The
error of `json.Unmarshal` is discarded by the code. -/
def ReadAzureBasicInfoJSON (w : World) (path : String) :
    (AzureBasicInfo × Option GoError) × List Event :=
  match w.ReadFile path with
  | (_, some err) =>
    (({}, some err),
      [Event.readFile path, Event.stdout (SprintfV "failed to read file: " err)])
  | (infoJSON, none) =>
    let info : AzureBasicInfo := {}
    let info := (w.UnmarshalBasicInfo infoJSON info).1
    ((info, none), [Event.readFile path])

/-- `readAuthJSON(path string) (*models.AzureAuthInfo, error)`. -/
def readAuthJSON (w : World) (path : String) :
    (AzureAuthInfo × Option GoError) × List Event :=
  match w.ReadFile path with
  | (_, some err) =>
    (({}, some err),
      [Event.readFile path, Event.log (SprintfV "failed to read file: " err)])
  | (infoJSON, none) =>
    let authInfo : AzureAuthInfo := {}
    let authInfo := (w.UnmarshalAuthInfo infoJSON authInfo).1
    ((authInfo, none), [Event.readFile path])

/-! ## Authorizer provider (`iam.go`, lines 24-39) -/

/-- `GetAuthorizer() (azcore.TokenCredential, string, error)`. -/
def GetAuthorizer (w : World) :
    (Option TokenCredential × String × Option GoError) × List Event :=
  match w.NewDefaultAzureCredential with
  | (_, some err) =>
    ((none, "", some err), [Event.newCredential, Event.log (SprintfV "" err)])
  | (authorizer, none) =>
    match GetSubscriptionId w with
    | ((_, some err), ev) => ((none, "", some err), Event.newCredential :: ev)
    | ((subscriptionID, none), ev) =>
      ((authorizer, subscriptionID, none), Event.newCredential :: ev)

/-! ## Sample worlds used to exercise the theorems -/

/-- A world with nothing configured: no environment variable, no `az`
executable, no files, no credential source. -/
def emptyWorld : World where
  Getenv := fun _ => ""
  Output := fun _ _ => ("", some ⟨"exec: \"az\": executable file not found in $PATH"⟩)
  ReadFile := fun path => ("", some ⟨"open " ++ path ++ ": no such file or directory"⟩)
  NewDefaultAzureCredential := (none, some ⟨"DefaultAzureCredential: failed to acquire a token"⟩)
  UnmarshalBasicInfo := fun _ v => (v, some ⟨"unexpected end of JSON input"⟩)
  UnmarshalAuthInfo := fun _ v => (v, some ⟨"unexpected end of JSON input"⟩)

/-- `AZURE_SUBSCRIPTION_ID=sub-123`; everything else as in `emptyWorld`. -/
def envWorld : World :=
  { emptyWorld with
    Getenv := fun key => if key = "AZURE_SUBSCRIPTION_ID" then "sub-123" else "" }

/-- No environment variable; `az account show --query id -o tsv` prints
`sub-456` and a newline and exits with status 0. -/
def cliWorld : World :=
  { emptyWorld with
    Output := fun name args =>
      if name = "az" ∧ args = azArgs then ("sub-456\n", none)
      else ("", some ⟨"exec: no command"⟩) }

/-- No environment variable, and no `az` executable on a Windows machine:
`os/exec` reports `exec.ErrNotFound`, whose text on Windows is
`executable file not found in %PATH%`. -/
def windowsNoAzWorld : World :=
  { emptyWorld with
    Output := fun _ _ => ("", some ⟨"exec: \"az\": executable file not found in %PATH%"⟩) }

/-- No environment variable; `az` exits with status 0 and prints only a
newline. -/
def blankOutputWorld : World :=
  { emptyWorld with Output := fun _ _ => ("\n", none) }

/-- Both sources available: a credential, and `AZURE_SUBSCRIPTION_ID=sub-123`. -/
def signedInWorld : World :=
  { envWorld with NewDefaultAzureCredential := (some ⟨7⟩, none) }

/-- The file `azureauth.json` exists and holds text that is not JSON; the
decoder reports an error and leaves the record as it was. -/
def badJsonWorld : World :=
  { emptyWorld with
    ReadFile := fun path =>
      if path = "azureauth.json" then ("not json", none)
      else ("", some ⟨"open " ++ path ++ ": no such file or directory"⟩) }

/-! ## Unit converter: theorems -/

/-- The four `uint32` products of `GetTiBInBytes` leave nothing of the
operand: the result is `0` for every input. -/
theorem GetTiBInBytes_eq_zero (m : Nat) : GetTiBInBytes m = 0 := by
  unfold GetTiBInBytes toUint64 mulUint32
  omega

/-- Four divisions by `1024` are one division by `2^40`. -/
theorem div_1024_four (n : Nat) : n / 1024 / 1024 / 1024 / 1024 = n / 2 ^ 40 := by
  rw [Nat.div_div_eq_div_mul, Nat.div_div_eq_div_mul, Nat.div_div_eq_div_mul]
  norm_num

/-- C1 (evaluation of the code): `GetTiBInBytes(1)` and
`GetTiBInBytes(4294967295)` are both `0`, not `2^40` and `4294967295 * 2^40`:
the product is formed in 32 bits and widened afterwards. -/
theorem GetTiBInBytes_wraps :
    GetTiBInBytes 1 = 0 ∧ GetTiBInBytes 1 ≠ 1099511627776 ∧
    GetTiBInBytes 4294967295 = 0 ∧ GetTiBInBytes 4294967295 ≠ 4294967295 * 2 ^ 40 := by
  refine ⟨?_, ?_, ?_, ?_⟩ <;> simp [GetTiBInBytes_eq_zero]

/-- C2 (evaluation of the code): the round trip through `GetTiBInBytes` and
`GetBytesInTiB` sends `1` to `0`, and `4294967295` to `0`. -/
theorem roundtrip_loses_value :
    GetBytesInTiB (GetTiBInBytes 1) = 0 ∧ GetBytesInTiB (GetTiBInBytes 1) ≠ 1 ∧
    GetBytesInTiB (GetTiBInBytes 4294967295) = 0 := by
  simp [GetTiBInBytes_eq_zero, GetBytesInTiB, toUint32, divUint64]

/-- C7: for every 64-bit unsigned `n`, `GetBytesInTiB n` is `n / 2^40`
rounded down; the quotient is below `2^32`, so the conversion to `uint32`
leaves it unchanged; and `GetBytesInTiB` maps `0` to `0`, `2^40` to `1` and
`2^40 - 1` to `0`. -/
theorem GetBytesInTiB_floor (n : Nat) (h : n < 2 ^ 64) :
    GetBytesInTiB n = n / 2 ^ 40 ∧
    n / 2 ^ 40 < 2 ^ 32 ∧ toUint32 (n / 2 ^ 40) = n / 2 ^ 40 ∧
    GetBytesInTiB 0 = 0 ∧ GetBytesInTiB (2 ^ 40) = 1 ∧ GetBytesInTiB (2 ^ 40 - 1) = 0 := by
  have hq : n / 2 ^ 40 < 2 ^ 32 := by omega
  refine ⟨?_, hq, ?_, ?_, ?_, ?_⟩
  · unfold GetBytesInTiB toUint32 divUint64
    rw [div_1024_four]
    exact Nat.mod_eq_of_lt hq
  · exact Nat.mod_eq_of_lt hq
  · decide
  · decide
  · decide

/-- C7 at the largest 64-bit value: `GetBytesInTiB (2^64 - 1) = 2^24 - 1`. -/
theorem GetBytesInTiB_floor_witness :
    2 ^ 64 - 1 < 2 ^ 64 ∧ GetBytesInTiB (2 ^ 64 - 1) = 2 ^ 24 - 1 :=
  ⟨by decide, (GetBytesInTiB_floor (2 ^ 64 - 1) (by decide)).1.trans (by decide)⟩

/-! ## Slice search: theorems -/

/-- The loop entered at index `i` on a list that holds `val`: it returns the
position of the first occurrence, counted from `i`. -/
theorem FindInSlice.loop_mem (val : String) (l : List String) (i : Int) (h : val ∈ l) :
    ∃ k : Nat, FindInSlice.loop val l i = (i + k, true) ∧ l[k]? = some val ∧
      ∀ j, j < k → l[j]? ≠ some val := by
  induction l generalizing i with
  | nil => simp at h
  | cons item rest ih =>
    by_cases hv : item = val
    · exact ⟨0, by simp [FindInSlice.loop, hv], by simp [hv], by simp⟩
    · have hrest : val ∈ rest := by
        rcases List.mem_cons.mp h with h1 | h1
        · exact absurd h1.symm hv
        · exact h1
      obtain ⟨k, hk, hget, hmin⟩ := ih (i + 1) hrest
      refine ⟨k + 1, ?_, by simpa using hget, ?_⟩
      · simp only [FindInSlice.loop, hv, if_false, hk]
        simp only [Prod.mk.injEq, and_true]
        push_cast
        ring
      · intro j hj
        cases j with
        | zero => simpa using hv
        | succ j => simpa using hmin j (by omega)

/-- The loop on a list that does not hold `val` returns `(-1, false)`. -/
theorem FindInSlice.loop_not_mem (val : String) (l : List String) (i : Int) (h : val ∉ l) :
    FindInSlice.loop val l i = (-1, false) := by
  induction l generalizing i with
  | nil => rfl
  | cons item rest ih =>
    have hv : item ≠ val := fun e => h (by simp [e])
    have hrest : val ∉ rest := fun e => h (List.mem_cons_of_mem _ e)
    simp [FindInSlice.loop, hv, ih (i + 1) hrest]

/-- C6: when `val` occurs in `slice`, `FindInSlice` returns `(i, true)` with
`i` the smallest index such that `slice[i] = val`; when `val` does not occur
(in particular for the empty slice) it returns `(-1, false)`; and
`FindInSlice ["a","b","c"] "b" = (1, true)`. -/
theorem FindInSlice_first (slice : List String) (val : String) :
    (val ∈ slice →
      ∃ i : Nat, FindInSlice slice val = ((i : Int), true) ∧ slice[i]? = some val ∧
        ∀ j, j < i → slice[j]? ≠ some val) ∧
    (val ∉ slice → FindInSlice slice val = (-1, false)) ∧
    FindInSlice [] val = (-1, false) ∧
    FindInSlice ["a", "b", "c"] "b" = (1, true) ∧
    FindInSlice ["a"] "z" = (-1, false) := by
  refine ⟨?_, ?_, rfl, by decide, by decide⟩
  · intro h
    obtain ⟨k, hk, hget, hmin⟩ := FindInSlice.loop_mem val slice 0 h
    exact ⟨k, by simpa [FindInSlice] using hk, hget, hmin⟩
  · intro h
    exact FindInSlice.loop_not_mem val slice 0 h

/-- C6 on a slice with a repeated value: the first of the two positions is
returned. -/
theorem FindInSlice_first_witness :
    FindInSlice ["x", "b", "b"] "b" = (1, true) ∧ FindInSlice ["x", "b", "b"] "q" = (-1, false) := by
  refine ⟨by decide, (FindInSlice_first ["x", "b", "b"] "q").2.1 (by decide)⟩

/-! ## Library model: lemmas -/

/-- The flag loop only moves forward in the format. -/
theorem skipFlags_length (s : List Char) : (skipFlags s).length ≤ s.length := by
  induction s with
  | nil => simp [skipFlags]
  | cons c rest ih =>
    unfold skipFlags
    split
    · simp only [List.length_cons]; omega
    · simp

/-- The digit loop only moves forward in the format. -/
theorem parsenum.loop_length (s : List Char) (num : Nat) (isnum : Bool)
    (r : Nat × Bool × List Char) (h : parsenum.loop s num isnum = some r) :
    r.2.2.length ≤ s.length := by
  induction s generalizing num isnum with
  | nil =>
    simp only [parsenum.loop, Option.some.injEq] at h
    subst h
    simp
  | cons c rest ih =>
    unfold parsenum.loop at h
    split at h
    · split at h
      · simp at h
      · have := ih _ _ h
        simp only [List.length_cons]
        omega
    · simp only [Option.some.injEq] at h
      subst h
      simp

/-- `parsenum` only moves forward in the format. -/
theorem parsenum_length (s : List Char) : (parsenum s).2.length ≤ s.length := by
  unfold parsenum
  split
  · simp
  · split
    · simp
    · next hloop =>
      simpa using parsenum.loop_length _ _ _ _ hloop

/-- The text after the closing bracket is shorter than the text searched. -/
theorem splitAtBracket_length (s inner after : List Char)
    (h : splitAtBracket s = some (inner, after)) : after.length < s.length := by
  induction s generalizing inner after with
  | nil => simp [splitAtBracket] at h
  | cons c rest ih =>
    unfold splitAtBracket at h
    split at h
    · simp only [Option.some.injEq, Prod.mk.injEq] at h
      simp [h.2]
    · split at h
      · simp at h
      · next i2 a2 hrec =>
        simp only [Option.some.injEq, Prod.mk.injEq] at h
        have := ih i2 a2 hrec
        rw [← h.2]
        simp only [List.length_cons]
        omega

/-- `parseArgNumber` only moves forward in the format. -/
theorem parseArgNumber_length (s : List Char) : (parseArgNumber s).1.length ≤ s.length := by
  unfold parseArgNumber
  split
  · simp
  · split
    · simp
    · next inner after hsplit =>
      have h1 := splitAtBracket_length _ _ _ hsplit
      have h2 : (s.drop 1).length ≤ s.length := by simp
      split <;> simp only <;> omega

/-- `argNumber` only moves forward in the format. -/
theorem argNumber_length (s : List Char) (g : Bool) : (argNumber s g).1.length ≤ s.length := by
  unfold argNumber
  split
  · exact parseArgNumber_length _
  · simp

/-- The width part only moves forward in the format. -/
theorem widthStep_length (s : List Char) (a g : Bool) : (widthStep s a g).1.length ≤ s.length := by
  unfold widthStep
  split
  · simp
  · exact parsenum_length _

/-- The precision part only moves forward in the format. -/
theorem precStep_length (s : List Char) (a g : Bool) : (precStep s a g).1.length ≤ s.length := by
  unfold precStep
  split
  · next s1 =>
    simp only
    have h1 := argNumber_length s1 (if a = true then false else g)
    generalize argNumber s1 (if a = true then false else g) = r at h1 ⊢
    split
    · next s3 heq =>
      simp only [heq, List.length_cons] at h1 ⊢
      omega
    · have h2 := parsenum_length r.1
      simp only [List.length_cons]
      omega
  · simp

/-- The verb itself is consumed: the text left is shorter. -/
theorem verbStep_length (s rest : List Char) (g : Bool) (h : (verbStep s g).2 = some rest) :
    rest.length < s.length := by
  unfold verbStep at h
  split at h
  · simp at h
  · split at h
    · simp only [Option.some.injEq] at h
      simp [h]
    · split at h <;>
      · simp only [Option.some.injEq] at h
        simp [h]

/-- One verb leaves a shorter format. -/
theorem doVerb_length (s rest : List Char) (h : (doVerb s).2 = some rest) :
    rest.length < s.length := by
  unfold doVerb at h
  simp only at h
  have h0 := skipFlags_length s
  have h1 := argNumber_length (skipFlags s) true
  generalize argNumber (skipFlags s) true = a at h h1
  have h2 := widthStep_length a.1 a.2.1 a.2.2
  generalize widthStep a.1 a.2.1 a.2.2 = wd at h h2
  have h3 := precStep_length wd.1 wd.2.1 wd.2.2.1
  generalize precStep wd.1 wd.2.1 wd.2.2.1 = pr at h h3
  have h5 := verbStep_length _ _ _ h
  have h4 : (if pr.2.1 = true then (pr.1, pr.2.1, pr.2.2.1)
      else argNumber pr.1 pr.2.2.1).1.length ≤ pr.1.length := by
    split
    · simp
    · exact argNumber_length _ _
  omega

/-- The bound on the rounds of the formatting loop is never reached when it
exceeds the length of the format: any two such bounds give the same text. -/
theorem doPrintf_fuel (f1 f2 : Nat) (format : List Char)
    (h1 : format.length < f1) (h2 : format.length < f2) :
    doPrintf f1 format = doPrintf f2 format := by
  induction f1 generalizing f2 format with
  | zero => omega
  | succ n ih =>
    cases f2 with
    | zero => omega
    | succ m =>
      unfold doPrintf
      simp only
      split
      · rfl
      · next c afterPercent hdrop =>
        have hlen : afterPercent.length < format.length := by
          have := (List.dropWhile_sublist (l := format) (fun c => c != '%')).length_le
          rw [hdrop, List.length_cons] at this
          omega
        cases hv : doVerb afterPercent with
        | mk out r =>
          cases r with
          | none => rfl
          | some rest =>
            have hr : rest.length < afterPercent.length :=
              doVerb_length afterPercent rest (by rw [hv])
            simp only
            rw [ih m rest (by omega) (by omega)]

/-- `Sprintf0` does not depend on its bound on the rounds: every bound above
the length of the format gives the text it returns. -/
theorem Sprintf0_fuel (format : String) (fuel : Nat) (h : format.length < fuel) :
    Sprintf0 format = ⟨doPrintf fuel format.data⟩ := by
  unfold Sprintf0
  exact congrArg String.mk
    (doPrintf_fuel (format.length + 1) fuel format.data (Nat.lt_succ_self _) h)

/-- A format without `%` is copied unchanged by the formatting loop. -/
theorem doPrintf_no_percent (fuel : Nat) (format : List Char) (h : '%' ∉ format) :
    doPrintf (fuel + 1) format = format := by
  have hall : ∀ c ∈ format, (c != '%') = true := by
    intro c hc
    simp only [bne_iff_ne, ne_eq]
    intro e
    exact h (e ▸ hc)
  have h1 : format.takeWhile (fun c => c != '%') = format :=
    List.takeWhile_eq_self_iff.mpr hall
  have h2 : format.dropWhile (fun c => c != '%') = [] :=
    List.dropWhile_eq_nil_iff.mpr hall
  simp only [doPrintf, h1, h2]

/-- A format without `%` is returned unchanged by `Sprintf0`. -/
theorem Sprintf0_no_percent (format : String) (h : '%' ∉ format.data) :
    Sprintf0 format = format := by
  unfold Sprintf0
  rw [doPrintf_no_percent _ _ h]

/-- The environment step when the variable is set to a non-empty value. -/
theorem GetSubscriptionIdFromEnv_set (w : World) (h : w.Getenv "AZURE_SUBSCRIPTION_ID" ≠ "") :
    GetSubscriptionIdFromEnv w =
      ((w.Getenv "AZURE_SUBSCRIPTION_ID", none), [Event.getenv "AZURE_SUBSCRIPTION_ID"]) := by
  simp [GetSubscriptionIdFromEnv, h]

/-- The environment step when the variable is unset or empty. -/
theorem GetSubscriptionIdFromEnv_unset (w : World) (h : w.Getenv "AZURE_SUBSCRIPTION_ID" = "") :
    GetSubscriptionIdFromEnv w =
      (("", some ⟨"AZURE_SUBSCRIPTION_ID environment variable is not set"⟩),
        [Event.getenv "AZURE_SUBSCRIPTION_ID"]) := by
  have hfmt : Errorf0 "AZURE_SUBSCRIPTION_ID environment variable is not set" =
      ⟨"AZURE_SUBSCRIPTION_ID environment variable is not set"⟩ := by
    unfold Errorf0
    rw [Sprintf0_no_percent _ (by decide)]
  simp [GetSubscriptionIdFromEnv, h, hfmt]

/-- The head of `dropWhile p l` does not satisfy `p`. -/
theorem head_dropWhile_false {α : Type} (p : α → Bool) (l : List α) (c : α)
    (h : (l.dropWhile p).head? = some c) : p c = false := by
  have := List.head?_dropWhile_not p l
  rw [h] at this
  exact this

/-- What `TrimSpace` returns is its argument with the leading and the
trailing white space removed. -/
theorem TrimSpace_isTrimOf (o : String) : IsTrimOf o (TrimSpace o) := by
  refine ⟨o.data.takeWhile IsSpace,
    (((o.data.dropWhile IsSpace).reverse).takeWhile IsSpace).reverse, ?_, ?_, ?_, ?_, ?_⟩
  · have h1 : o.data = o.data.takeWhile IsSpace ++ o.data.dropWhile IsSpace :=
      (List.takeWhile_append_dropWhile IsSpace o.data).symm
    have h2 : o.data.dropWhile IsSpace =
        (((o.data.dropWhile IsSpace).reverse).dropWhile IsSpace).reverse ++
        (((o.data.dropWhile IsSpace).reverse).takeWhile IsSpace).reverse := by
      rw [← List.reverse_append, List.takeWhile_append_dropWhile, List.reverse_reverse]
    simp only [TrimSpace, trimRightSpace, trimLeftSpace, List.append_assoc]
    rw [← h2]
    exact h1
  · intro c hc
    exact (List.mem_takeWhile_imp hc)
  · intro c hc
    exact (List.mem_takeWhile_imp (List.mem_reverse.mp hc))
  · intro c hc
    simp only [TrimSpace, trimRightSpace, trimLeftSpace] at hc
    -- the head of the result is the head of the left-trimmed text
    generalize hm : o.data.dropWhile IsSpace = m at hc
    have hsplit : m = (m.reverse.dropWhile IsSpace).reverse ++
        (m.reverse.takeWhile IsSpace).reverse := by
      rw [← List.reverse_append, List.takeWhile_append_dropWhile, List.reverse_reverse]
    have hhead : m.head? = some c := by
      rw [hsplit, List.head?_append, hc]
      rfl
    exact head_dropWhile_false IsSpace o.data c (hm ▸ hhead)
  · intro c hc
    simp only [TrimSpace, trimRightSpace, trimLeftSpace, List.getLast?_reverse] at hc
    exact head_dropWhile_false IsSpace _ c hc

/-- A text that holds a character that is not white space does not trim to
the empty text. -/
theorem TrimSpace_ne_empty (o : String) (h : ∃ c ∈ o.data, IsSpace c = false) :
    TrimSpace o ≠ "" := by
  obtain ⟨c, hc, hsp⟩ := h
  obtain ⟨pre, post, hsplit, hpre, hpost, -, -⟩ := TrimSpace_isTrimOf o
  intro he
  rw [hsplit, he] at hc
  have : c ∈ pre ∨ c ∈ post := by simpa using hc
  rcases this with h1 | h1
  · exact absurd (hpre c h1) (by simp [hsp])
  · exact absurd (hpost c h1) (by simp [hsp])

/-- A text made of white space only (or empty) trims to the empty text. -/
theorem TrimSpace_all_space (o : String) (h : ∀ c ∈ o.data, IsSpace c = true) :
    TrimSpace o = "" := by
  have h1 : o.data.dropWhile IsSpace = [] := List.dropWhile_eq_nil_iff.mpr h
  simp only [TrimSpace, trimRightSpace, trimLeftSpace, h1]
  rfl

/-! ## Subscription resolver: theorems -/

/-- C3: when `AZURE_SUBSCRIPTION_ID` is set to a non-empty `s`,
`GetSubscriptionId` returns `(s, nil)` in every world (whatever the external
command would return or fail with); its only action is the environment
lookup, and no external process is started. -/
theorem GetSubscriptionId_env_short_circuit (w : World) (s : String) (hs : s ≠ "")
    (henv : w.Getenv "AZURE_SUBSCRIPTION_ID" = s) :
    GetSubscriptionId w = ((s, none), [Event.getenv "AZURE_SUBSCRIPTION_ID"]) ∧
    ∀ ev ∈ (GetSubscriptionId w).2, ev.isExec = false := by
  have hne : w.Getenv "AZURE_SUBSCRIPTION_ID" ≠ "" := henv ▸ hs
  have hres : GetSubscriptionId w = ((s, none), [Event.getenv "AZURE_SUBSCRIPTION_ID"]) := by
    simp only [GetSubscriptionId, GetSubscriptionIdFromEnv_set w hne, henv]
  refine ⟨hres, ?_⟩
  rw [hres]
  intro ev hev
  simp only [List.mem_singleton] at hev
  rw [hev]
  rfl

/-- C4: when `AZURE_SUBSCRIPTION_ID` is unset or empty and the external
command succeeds with an output `o` that holds a character that is not white
space, `GetSubscriptionId` returns `(TrimSpace o, nil)`, and `TrimSpace o` is
`o` with its leading and trailing white space removed, a non-empty text. -/
theorem GetSubscriptionId_command_fallback (w : World) (o : String)
    (henv : w.Getenv "AZURE_SUBSCRIPTION_ID" = "")
    (hcmd : w.Output "az" azArgs = (o, none))
    (hout : ∃ c ∈ o.data, IsSpace c = false) :
    (GetSubscriptionId w).1 = (TrimSpace o, none) ∧
    IsTrimOf o (TrimSpace o) ∧ TrimSpace o ≠ "" := by
  refine ⟨?_, TrimSpace_isTrimOf o, TrimSpace_ne_empty o hout⟩
  simp only [GetSubscriptionId, GetSubscriptionIdFromEnv_unset w henv,
    GetSubscriptionIdFromAzCli, hcmd]

/-- C3 in a world where the variable is `sub-123` and the command would
fail. -/
theorem GetSubscriptionId_env_short_circuit_witness :
    GetSubscriptionId envWorld = (("sub-123", none), [Event.getenv "AZURE_SUBSCRIPTION_ID"]) ∧
    ∀ ev ∈ (GetSubscriptionId envWorld).2, ev.isExec = false :=
  GetSubscriptionId_env_short_circuit envWorld "sub-123" (by decide) (by decide)

/-- C4 on the output `"sub-456\n"`: the resolver returns `"sub-456"`. -/
theorem GetSubscriptionId_command_fallback_witness :
    (GetSubscriptionId cliWorld).1 = (TrimSpace "sub-456\n", none) ∧
    TrimSpace "sub-456\n" = "sub-456" :=
  ⟨(GetSubscriptionId_command_fallback cliWorld "sub-456\n" (by decide) (by decide)
      ⟨'s', by decide, by decide⟩).1, by decide⟩

/-- The two-failure path: the joined text goes through the formatting loop
of `fmt.Errorf` as its format. -/
theorem GetSubscriptionId_both_fail (w : World) (o : String) (e : GoError)
    (henv : w.Getenv "AZURE_SUBSCRIPTION_ID" = "")
    (hcmd : w.Output "az" azArgs = (o, some e)) :
    (GetSubscriptionId w).1 =
      ("", some (Errorf0
        ("GetSubscriptionIdFromEnv error: AZURE_SUBSCRIPTION_ID environment variable is not set"
          ++ "; " ++ ("GetSubscriptionIdFromAzCli error: " ++ e.Error)))) := by
  simp only [GetSubscriptionId, GetSubscriptionIdFromEnv_unset w henv,
    GetSubscriptionIdFromAzCli, hcmd, SprintfV, Join, List.nil_append, List.cons_append]
  rfl

/-- When the description of the command failure holds no `%`, the message of
the composite error is the environment description, `"; "`, and the command
description, in this order. -/
theorem GetSubscriptionId_composite_no_percent (w : World) (o : String) (e : GoError)
    (henv : w.Getenv "AZURE_SUBSCRIPTION_ID" = "")
    (hcmd : w.Output "az" azArgs = (o, some e))
    (hpct : '%' ∉ e.Error.data) :
    (GetSubscriptionId w).1 =
      ("", some ⟨"GetSubscriptionIdFromEnv error: AZURE_SUBSCRIPTION_ID environment variable is not set"
          ++ "; " ++ ("GetSubscriptionIdFromAzCli error: " ++ e.Error)⟩) := by
  rw [GetSubscriptionId_both_fail w o e henv hcmd]
  unfold Errorf0
  rw [Sprintf0_no_percent]
  simp only [String.data_append, List.mem_append, not_or]
  exact ⟨⟨by decide, by decide⟩, by decide, hpct⟩

set_option maxRecDepth 200000 in
/-- C5 (evaluation of the code): with the variable unset and the command
failing with `exec: "az": executable file not found in %PATH%`, the message
of the returned error ends in `%!P(MISSING)ATH%!(NOVERB)`; the description
of the command failure is not a part of it. -/
theorem GetSubscriptionId_percent_mangled :
    (GetSubscriptionId windowsNoAzWorld).1 =
      ("", some ⟨"GetSubscriptionIdFromEnv error: AZURE_SUBSCRIPTION_ID environment variable is not set; GetSubscriptionIdFromAzCli error: exec: \"az\": executable file not found in %!P(MISSING)ATH%!(NOVERB)"⟩) ∧
    ¬ ("exec: \"az\": executable file not found in %PATH%".data <:+:
        "GetSubscriptionIdFromEnv error: AZURE_SUBSCRIPTION_ID environment variable is not set; GetSubscriptionIdFromAzCli error: exec: \"az\": executable file not found in %!P(MISSING)ATH%!(NOVERB)".data) := by
  constructor
  · rw [GetSubscriptionId_both_fail windowsNoAzWorld "" _ rfl rfl]
    decide
  · decide

/-- When the command exits successfully with white space only (or nothing),
the resolver returns the empty identifier and no error. -/
theorem GetSubscriptionId_blank_output (w : World) (o : String)
    (henv : w.Getenv "AZURE_SUBSCRIPTION_ID" = "")
    (hcmd : w.Output "az" azArgs = (o, none))
    (hout : ∀ c ∈ o.data, IsSpace c = true) :
    (GetSubscriptionId w).1 = ("", none) := by
  simp only [GetSubscriptionId, GetSubscriptionIdFromEnv_unset w henv,
    GetSubscriptionIdFromAzCli, hcmd, TrimSpace_all_space o hout]

/-- C10 (evaluation of the code): with the variable unset and the command
exiting successfully after printing only a newline, `GetSubscriptionId`
returns the empty identifier with a nil error. -/
theorem GetSubscriptionId_empty_success :
    GetSubscriptionId blankOutputWorld =
      (("", none), [Event.getenv "AZURE_SUBSCRIPTION_ID", Event.exec "az" azArgs]) := by
  decide

/-! ## Configuration readers: theorems -/

/-- C9: for every path, each of the two readers returns an error exactly
when reading the file fails; on a read failure the error returned is the read
error and every field of the record returned is absent; when the read
succeeds the error returned is nil and the record is what the decoder left,
whatever error the decoder reported. -/
theorem config_readers_errors (w : World) (path : String) :
    ((ReadAzureBasicInfoJSON w path).1.2 ≠ none ↔ (w.ReadFile path).2 ≠ none) ∧
    ((readAuthJSON w path).1.2 ≠ none ↔ (w.ReadFile path).2 ≠ none) ∧
    (∀ e, (w.ReadFile path).2 = some e →
      (ReadAzureBasicInfoJSON w path).1 = (⟨none, none, none, none⟩, some e) ∧
      (readAuthJSON w path).1 =
        (⟨none, none, none, none, none, none, none, none, none, none⟩, some e)) ∧
    ((w.ReadFile path).2 = none →
      (ReadAzureBasicInfoJSON w path).1 =
        ((w.UnmarshalBasicInfo (w.ReadFile path).1 {}).1, none) ∧
      (readAuthJSON w path).1 = ((w.UnmarshalAuthInfo (w.ReadFile path).1 {}).1, none)) := by
  unfold ReadAzureBasicInfoJSON readAuthJSON
  rcases hread : w.ReadFile path with ⟨data, _ | err⟩
  · simp
  · simp

/-- C9 on a file that is read but is not JSON: the decoder reports an error,
both readers return a nil error and a record with no field set. -/
theorem config_readers_errors_witness :
    (badJsonWorld.UnmarshalAuthInfo "not json" {}).2 ≠ none ∧
    (ReadAzureBasicInfoJSON badJsonWorld "azureauth.json").1 = ({}, none) ∧
    (readAuthJSON badJsonWorld "azureauth.json").1 = ({}, none) ∧
    (readAuthJSON badJsonWorld "missing.json").1 =
      ({}, some ⟨"open missing.json: no such file or directory"⟩) :=
  ⟨by decide,
   ((config_readers_errors badJsonWorld "azureauth.json").2.2.2 (by decide)).1,
   ((config_readers_errors badJsonWorld "azureauth.json").2.2.2 (by decide)).2,
   ((config_readers_errors badJsonWorld "missing.json").2.2.1 _ (by decide)).2⟩

/-! ## Authorizer provider: theorems -/

/-- C8: if the construction of the default credential fails with `e`,
`GetAuthorizer` returns `(nil, "", e)` and performs no action of the
subscription resolver (no environment lookup, no process); if it succeeds and
`GetSubscriptionId` fails with `e`, `GetAuthorizer` returns `(nil, "", e)`; if
both succeed it returns the credential and the identifier they produced with a
nil error; and a nil error is returned only when both succeeded. -/
theorem GetAuthorizer_propagation (w : World) :
    (∀ e, w.NewDefaultAzureCredential.2 = some e →
      (GetAuthorizer w).1 = (none, "", some e) ∧
      ∀ ev ∈ (GetAuthorizer w).2, ev.isResolver = false) ∧
    (w.NewDefaultAzureCredential.2 = none → ∀ e, (GetSubscriptionId w).1.2 = some e →
      (GetAuthorizer w).1 = (none, "", some e)) ∧
    (w.NewDefaultAzureCredential.2 = none → (GetSubscriptionId w).1.2 = none →
      (GetAuthorizer w).1 =
        (w.NewDefaultAzureCredential.1, (GetSubscriptionId w).1.1, none)) ∧
    ((GetAuthorizer w).1.2.2 = none →
      w.NewDefaultAzureCredential.2 = none ∧ (GetSubscriptionId w).1.2 = none) := by
  unfold GetAuthorizer
  rcases hcred : w.NewDefaultAzureCredential with ⟨authorizer, _ | cerr⟩
  · rcases hsub : GetSubscriptionId w with ⟨⟨subscriptionID, _ | serr⟩, ev⟩
    · simp
    · simp
  · simp [Event.isResolver]

/-- C8 in three worlds: no credential source; a credential but no
subscription source; both available. -/
theorem GetAuthorizer_propagation_witness :
    (GetAuthorizer emptyWorld).1 =
      (none, "", some ⟨"DefaultAzureCredential: failed to acquire a token"⟩) ∧
    (∀ ev ∈ (GetAuthorizer emptyWorld).2, ev.isResolver = false) ∧
    (GetAuthorizer signedInWorld).1 = (some ⟨7⟩, "sub-123", none) :=
  ⟨((GetAuthorizer_propagation emptyWorld).1
      ⟨"DefaultAzureCredential: failed to acquire a token"⟩ rfl).1,
   ((GetAuthorizer_propagation emptyWorld).1
      ⟨"DefaultAzureCredential: failed to acquire a token"⟩ rfl).2,
   ((GetAuthorizer_propagation signedInWorld).2.2.1 (by decide) (by decide)).trans (by decide)⟩

end AnfSample
